import Mathlib

/-!
# Verification of the gym-socket-api Go client binding

A shallow embedding of `binding-go/proto.go` and `binding-go/env.go`.

Modelling conventions:
* A byte stream is a `List Nat` of byte values (writers only ever produce
  values `< 256`; readers consume whatever bytes they are given, as the Go
  readers do).
* Reading functions take the stream and return `Except String (value × rest)`,
  mirroring Go functions that consume a prefix of an `io.Reader` and either
  fail with an `error` or return a value; `rest` is the unconsumed suffix.
* Writing functions on the buffered writer take the buffer contents so far and
  return the extended buffer, mirroring sequential writes to `bufio.Writer`.
* Go `uint32` values are `Nat` with explicit `% 2^32`; the Go `int` (64-bit,
  two's-complement wrap-around on overflow) is `Int` passed through `wrap64`.
* `float64` values are represented by their little-endian 64-bit bit pattern
  as a `Nat`: the codec only moves the 8 raw bytes, it never computes with
  the float.
* Go stream errors surface as the string "EOF" (the codec does not
  distinguish `io.EOF` from `io.ErrUnexpectedEOF` in any way the client
  inspects); protocol errors carry the exact message from the source.
-/

namespace GymSocket

/-- Little-endian encoding of the low 32 bits of `n`, as written by
`binary.Write(w, binary.LittleEndian, uint32(n))`. -/
def u32le (n : Nat) : List Nat :=
  [n % 256, n / 256 % 256, n / 65536 % 256, n / 16777216 % 256]

/-- Little-endian decoding of a 4-byte unsigned integer, as read by
`binary.Read(r, binary.LittleEndian, &length)` for a `uint32`; fails with
an I/O error on a truncated stream. -/
def readU32 : List Nat → Except String (Nat × List Nat)
  | b0 :: b1 :: b2 :: b3 :: rest =>
      .ok (b0 + 256 * b1 + 65536 * b2 + 16777216 * b3, rest)
  | _ => .error "EOF"

/-- Little-endian value of an 8-byte group, the bit pattern of the `float64`
reward. -/
def leNat8 (b0 b1 b2 b3 b4 b5 b6 b7 : Nat) : Nat :=
  b0 + 256 * (b1 + 256 * (b2 + 256 * (b3 + 256 * (b4 + 256 * (b5 + 256 * (b6 + 256 * b7))))))

/-- `writeByteField` from proto.go: a 4-byte little-endian length
(`uint32(len(b))`, so the length is truncated to 32 bits) followed by the raw
bytes. -/
def writeByteField (b : List Nat) : List Nat :=
  u32le (b.length % 4294967296) ++ b

/-- `readByteField` from proto.go: read a 4-byte little-endian length, then
exactly that many bytes; a zero length yields `nil` (the empty list) without
touching the stream further. -/
def readByteField (s : List Nat) : Except String (List Nat × List Nat) :=
  match readU32 s with
  | .error e => .error e
  | .ok (length, rest) =>
      if length = 0 then .ok ([], rest)
      else if rest.length < length then .error "EOF"
      else .ok (rest.take length, rest.drop length)

/-- UTF-8-ish rendering of raw bytes as a string, modelling Go's
`string(errBytes)` on the ASCII messages this protocol carries. -/
def natsToString (bs : List Nat) : String :=
  String.mk (bs.map Char.ofNat)

/-- `readErrorField` from proto.go: read a ByteField; non-empty contents are
an error whose message is the field's bytes, empty means success.  Returns
the unconsumed rest of the stream on success. -/
def readErrorField (s : List Nat) : Except String (List Nat) :=
  match readByteField s with
  | .error e => .error e
  | .ok (errBytes, rest) =>
      if errBytes.length > 0 then .error (natsToString errBytes) else .ok rest

/-- Packet type codes, the `iota` block in proto.go. -/
def packetReset : Nat := 0

def packetStep : Nat := 1

def packetGetSpace : Nat := 2

def packetSampleAction : Nat := 3

def packetMonitor : Nat := 4

def packetRender : Nat := 5

def packetUpload : Nat := 6

def packetUniverseConfigure : Nat := 7

def packetUniverseWrap : Nat := 8

def packetRetroConfigure : Nat := 9

def packetRetroWrap : Nat := 10

/-- Observation encoding codes from proto.go. -/
def observationJSON : Nat := 0

def observationByteList : Nat := 1

/-- Space selector codes from proto.go. -/
def actionSpace : Nat := 0

def observationSpace : Nat := 1

/-- `writePacketType` from proto.go: appends the single opcode byte to the
buffered writer. -/
def writePacketType (w : List Nat) (typeID : Nat) : List Nat :=
  w ++ [typeID % 256]

/-- Append a ByteField to the buffered writer. -/
def writeByteFieldW (w : List Nat) (b : List Nat) : List Nat :=
  w ++ writeByteField b

/-- `writeBool` from proto.go: a single byte, 1 for true and 0 for false. -/
def writeBool (w : List Nat) (b : Bool) : List Nat :=
  w ++ [if b then 1 else 0]

/-- `readBool` from proto.go: one byte; 0 and 1 are the only valid values. -/
def readBool : List Nat → Except String (Bool × List Nat)
  | [] => .error "EOF"
  | b :: rest =>
      if b ≠ 0 ∧ b ≠ 1 then .error ("invalid bool: " ++ toString b)
      else .ok (b = 1, rest)

/-- `readReward` from proto.go: 8 bytes, the little-endian bit pattern of a
`float64`; the value is kept as its 64-bit pattern. -/
def readReward : List Nat → Except String (Nat × List Nat)
  | b0 :: b1 :: b2 :: b3 :: b4 :: b5 :: b6 :: b7 :: rest =>
      .ok (leNat8 b0 b1 b2 b3 b4 b5 b6 b7, rest)
  | _ => .error "EOF"

/-- Two's-complement wrap of an integer into the signed 64-bit range, the
behaviour of Go's `int` multiplication on overflow. -/
def wrap64 (x : Int) : Int :=
  (x + 9223372036854775808) % 18446744073709551616 - 9223372036854775808

/-- The running `product *= dims[i]` of `decodeUint8Obs`, carried out in Go's
64-bit `int` arithmetic (wrapping at every step). -/
def dimsProduct (dims : List Nat) : Int :=
  dims.foldl (fun p d => wrap64 (p * (d : Int))) 1

/-- An observation, the `Obs` values produced in proto.go: either a raw JSON
document (`jsonObs`, the bytes kept opaque at decode time) or a
multi-dimensional byte array (`uint8Obs` with `Dims` and `Values`). -/
inductive Obs where
  | jsonObs (data : List Nat)
  | uint8Obs (dims : List Nat) (values : List Nat)
deriving DecidableEq, Repr

/-- Read `count` little-endian `uint32` dimension sizes, the loop body of
`decodeUint8Obs`. -/
def readDims : Nat → List Nat → Except String (List Nat × List Nat)
  | 0, s => .ok ([], s)
  | n + 1, s =>
      match readU32 s with
      | .error e => .error e
      | .ok (d, s') =>
          match readDims n s' with
          | .error e => .error e
          | .ok (ds, s'') => .ok (d :: ds, s'')

/-- `decodeUint8Obs` from proto.go: parse a 4-byte dimension count (zero is an
error), then that many 4-byte dimension sizes; multiply them together in Go
`int` arithmetic and require the product to equal the number of remaining
bytes; on success the values are the final `product` bytes of `data`
(`data[len(data)-product:]`). -/
def decodeUint8Obs (data : List Nat) : Except String Obs :=
  match readU32 data with
  | .error e => .error e
  | .ok (numDims, r) =>
      if numDims = 0 then .error "byte list has 0 dimensions"
      else
        match readDims numDims r with
        | .error e => .error e
        | .ok (dims, r') =>
            let product := dimsProduct dims
            if product ≠ (r'.length : Int) then .error "incorrect byte list size"
            else .ok (.uint8Obs dims (data.drop (data.length - product.toNat)))

/-- `readObservation` from proto.go: one encoding byte, then a ByteField with
the payload; encoding 0 wraps the raw JSON bytes, encoding 1 decodes a shaped
byte array, anything else is an unknown-observation-type error. -/
def readObservation (s : List Nat) : Except String (Obs × List Nat) :=
  match s with
  | [] => .error "EOF"
  | typeID :: rest =>
      match readByteField rest with
      | .error e => .error e
      | .ok (obsData, rest') =>
          if typeID = observationJSON then .ok (.jsonObs obsData, rest')
          else if typeID = observationByteList then
            match decodeUint8Obs obsData with
            | .error e => .error e
            | .ok o => .ok (o, rest')
          else .error ("unknown observation type: " ++ toString typeID)

/-- A JSON document, the model of the `interface{}` values Go's
`encoding/json` moves in and out of this protocol. -/
inductive Json where
  | null
  | bool (b : Bool)
  | num (n : Int)
  | str (s : String)
  | arr (elems : List Json)
  | obj (fields : List (String × Json))
deriving Repr

/-- UTF-8 encoding of one character. -/
def utf8Bytes (c : Char) : List Nat :=
  let n := c.toNat
  if n < 128 then [n]
  else if n < 2048 then [192 + n / 64, 128 + n % 64]
  else if n < 65536 then [224 + n / 4096, 128 + n / 64 % 64, 128 + n % 64]
  else [240 + n / 262144, 128 + n / 4096 % 64, 128 + n / 64 % 64, 128 + n % 64]

/-- UTF-8 bytes of a string, modelling Go's `[]byte(s)`. -/
def strBytes (s : String) : List Nat :=
  s.data.foldr (fun c acc => utf8Bytes c ++ acc) []

mutual

/-- Models `json.Marshal` from Go's `encoding/json` on the JSON subset this
protocol moves (strings are assumed escape-free, numbers integral); object
fields are emitted in list order, so callers sort them first the way
`json.Marshal` sorts map keys. -/
def jsonMarshal : Json → List Nat
  | .null => strBytes "null"
  | .bool true => strBytes "true"
  | .bool false => strBytes "false"
  | .num n => strBytes (toString n)
  | .str s => 34 :: (strBytes s ++ [34])
  | .arr xs => 91 :: (jsonMarshalElems xs ++ [93])
  | .obj fs => 123 :: (jsonMarshalFields fs ++ [125])

/-- Comma-separated marshalled array elements. -/
def jsonMarshalElems : List Json → List Nat
  | [] => []
  | [x] => jsonMarshal x
  | x :: y :: xs => jsonMarshal x ++ 44 :: jsonMarshalElems (y :: xs)

/-- Comma-separated marshalled object fields, each `"key":value`. -/
def jsonMarshalFields : List (String × Json) → List Nat
  | [] => []
  | [(k, v)] => 34 :: (strBytes k ++ [34, 58]) ++ jsonMarshal v
  | (k, v) :: f :: fs =>
      34 :: (strBytes k ++ [34, 58]) ++ jsonMarshal v ++ 44 :: jsonMarshalFields (f :: fs)

end

/-- Insert a field into a key-sorted field list. -/
def insertSorted (x : String × Json) : List (String × Json) → List (String × Json)
  | [] => [x]
  | y :: ys => if x.1 ≤ y.1 then x :: y :: ys else y :: insertSorted x ys

/-- Sort object fields by key (insertion sort). -/
def sortFields (fs : List (String × Json)) : List (String × Json) :=
  fs.foldr insertSorted []

/-- `json.Marshal` applied to a `map[string]interface{}`: Go marshals map
entries in sorted key order. -/
def jsonMarshalMap (fields : List (String × Json)) : List Nat :=
  jsonMarshal (.obj (sortFields fields))

/-- JSON insignificant whitespace. -/
def isWs (b : Nat) : Bool :=
  b == 32 || b == 9 || b == 10 || b == 13

/-- Drop leading JSON whitespace. -/
def skipWs : List Nat → List Nat
  | [] => []
  | b :: r => if isWs b then skipWs r else b :: r

/-- Bytes of a JSON string up to the closing quote (escape sequences are
outside the modelled subset). -/
def parseStrBytes : List Nat → Except String (List Nat × List Nat)
  | [] => .error "unexpected end of JSON input"
  | b :: r =>
      if b = 34 then .ok ([], r)
      else if b = 92 then .error "unsupported escape in JSON string"
      else
        match parseStrBytes r with
        | .error e => .error e
        | .ok (cs, r') => .ok (b :: cs, r')

/-- Split a maximal run of ASCII digits off the front of the stream. -/
def takeDigits : List Nat → (List Nat × List Nat)
  | [] => ([], [])
  | b :: r =>
      if 48 ≤ b ∧ b ≤ 57 then
        match takeDigits r with
        | (ds, r') => (b :: ds, r')
      else ([], b :: r)

/-- Numeric value of a digit run. -/
def digitsVal (ds : List Nat) : Nat :=
  ds.foldl (fun a d => a * 10 + (d - 48)) 0

mutual

/-- One JSON value, by recursive descent with fuel (a byte of input is
consumed before every recursive call, so `length + 1` fuel always
suffices). -/
def parseValue : Nat → List Nat → Except String (Json × List Nat)
  | 0, _ => .error "JSON value too deeply nested"
  | fuel + 1, s =>
      match skipWs s with
      | [] => .error "unexpected end of JSON input"
      | b :: r =>
          if b = 110 then
            match r with
            | 117 :: 108 :: 108 :: r' => .ok (.null, r')
            | _ => .error "invalid character in JSON"
          else if b = 116 then
            match r with
            | 114 :: 117 :: 101 :: r' => .ok (.bool true, r')
            | _ => .error "invalid character in JSON"
          else if b = 102 then
            match r with
            | 97 :: 108 :: 115 :: 101 :: r' => .ok (.bool false, r')
            | _ => .error "invalid character in JSON"
          else if b = 34 then
            match parseStrBytes r with
            | .error e => .error e
            | .ok (cs, r') => .ok (.str (natsToString cs), r')
          else if b = 45 then
            match takeDigits r with
            | ([], _) => .error "invalid character in JSON"
            | (ds, r') => .ok (.num (-(digitsVal ds : Int)), r')
          else if 48 ≤ b ∧ b ≤ 57 then
            match takeDigits (b :: r) with
            | (ds, r') => .ok (.num (digitsVal ds), r')
          else if b = 91 then
            match skipWs r with
            | 93 :: r' => .ok (.arr [], r')
            | r' =>
                match parseArrElems fuel r' with
                | .error e => .error e
                | .ok (vs, r'') => .ok (.arr vs, r'')
          else if b = 123 then
            match skipWs r with
            | 125 :: r' => .ok (.obj [], r')
            | r' =>
                match parseObjFields fuel r' with
                | .error e => .error e
                | .ok (fs, r'') => .ok (.obj fs, r'')
          else .error "invalid character in JSON"

/-- Array elements after `[`, separated by commas and closed by `]`. -/
def parseArrElems : Nat → List Nat → Except String (List Json × List Nat)
  | 0, _ => .error "JSON value too deeply nested"
  | fuel + 1, s =>
      match parseValue fuel s with
      | .error e => .error e
      | .ok (v, r) =>
          match skipWs r with
          | 44 :: r' =>
              match parseArrElems fuel r' with
              | .error e => .error e
              | .ok (vs, r'') => .ok (v :: vs, r'')
          | 93 :: r' => .ok ([v], r')
          | _ => .error "invalid character in JSON"

/-- Object fields after an opening brace, `"key": value` pairs separated by
commas and closed by a closing brace. -/
def parseObjFields : Nat → List Nat → Except String (List (String × Json) × List Nat)
  | 0, _ => .error "JSON value too deeply nested"
  | fuel + 1, s =>
      match skipWs s with
      | 34 :: r =>
          match parseStrBytes r with
          | .error e => .error e
          | .ok (kcs, r') =>
              match skipWs r' with
              | 58 :: r'' =>
                  match parseValue fuel r'' with
                  | .error e => .error e
                  | .ok (v, r3) =>
                      match skipWs r3 with
                      | 44 :: r4 =>
                          match parseObjFields fuel r4 with
                          | .error e => .error e
                          | .ok (fs, r5) => .ok ((natsToString kcs, v) :: fs, r5)
                      | 125 :: r4 => .ok ([(natsToString kcs, v)], r4)
                      | _ => .error "invalid character in JSON"
              | _ => .error "invalid character in JSON"
      | _ => .error "invalid character in JSON"

end

/-- Models `json.Unmarshal(data, &v)` for `v interface{}`: exactly one JSON
value, optionally surrounded by whitespace; in particular empty input fails
with "unexpected end of JSON input". -/
def jsonUnmarshal (data : List Nat) : Except String Json :=
  match parseValue (data.length + 1) data with
  | .error e => .error e
  | .ok (v, rest) =>
      match skipWs rest with
      | [] => .ok v
      | _ => .error "invalid character after top-level value"

/-- Action encoding code from proto.go (JSON is the only one). -/
def actionJSON : Nat := 0

/-- `readAction` from proto.go: a type byte that must be 0 (JSON), then a
ByteField whose bytes are unmarshalled as JSON into the caller's
destination. -/
def readAction (s : List Nat) : Except String (Json × List Nat) :=
  match s with
  | [] => .error "EOF"
  | typeID :: rest =>
      if typeID ≠ 0 then .error ("unsupported action type: " ++ toString typeID)
      else
        match readByteField rest with
        | .error e => .error e
        | .ok (jsonData, rest') =>
            match jsonUnmarshal jsonData with
            | .error e => .error e
            | .ok v => .ok (v, rest')

/-- `writeAction` from proto.go: marshal the action to JSON, write the
`actionJSON` type byte, then the ByteField with the JSON bytes. -/
def writeAction (w : List Nat) (act : Json) : List Nat :=
  writeByteFieldW (writePacketType w actionJSON) (jsonMarshal act)

/-- One pass of Go's `path/filepath.Clean` over already-split path elements
(Unix rules): drop empty and `.` elements; `..` pops the previous element,
except at the root (where it is dropped) or when nothing poppable remains in
a relative path (where it is kept).  `acc` holds the kept elements in
reverse. -/
def cleanElems (rooted : Bool) : List String → List String → List String
  | [], acc => acc.reverse
  | c :: rest, acc =>
      if c = "" ∨ c = "." then cleanElems rooted rest acc
      else if c = ".." then
        match acc with
        | a :: acc' =>
            if a = ".." then cleanElems rooted rest (c :: a :: acc')
            else cleanElems rooted rest acc'
        | [] => if rooted then cleanElems rooted rest [] else cleanElems rooted rest [c]
      else cleanElems rooted rest (c :: acc)

/-- Models Go's `path/filepath.IsAbs` on Unix: the path begins with a
slash. -/
def isAbsPath (s : String) : Bool :=
  match s.data with
  | c :: _ => decide (c = '/')
  | [] => false

/-- Models Go's `path/filepath.Clean` on Unix: shortest lexically equivalent
path (no `.`/`..`/empty elements; `"."` for an empty result). -/
def filepathClean (path : String) : String :=
  if path = "" then "."
  else
    let rooted := isAbsPath path
    let elems := cleanElems rooted (path.splitOn "/") []
    let out := String.intercalate "/" elems
    if rooted then "/" ++ out
    else if out = "" then "." else out

/-- Models Go's `path/filepath.Abs` on Unix with the working directory made
explicit: an absolute path is cleaned, a relative one is joined onto the
working directory (`Join(wd, path) = Clean(wd + "/" + path)`). -/
def filepathAbs (cwd path : String) : String :=
  if isAbsPath path then filepathClean path
  else filepathClean (cwd ++ "/" ++ path)

/-- The client handle returned by `Make` (env.go's `connEnv`): in this model
it carries the part of the server's stream that follows the handshake
response.  The `sync.Mutex` field is operational and has no wire-level
content. -/
structure ConnEnv where
  rest : List Nat
deriving Repr

/-- Models `essentials.AddCtxTo(ctx, &err)` as applied to a final error by a
`defer`: prefixes the operation name to the message
(`fmt.Errorf("%s: %s", ctx, err)`).  The methods in env.go that call
`AddCtxTo` without `defer` run it at entry while `err` is still nil, so for
them it is a no-op and nothing in their model calls this. -/
def addCtx (ctx : String) (e : Except String α) : Except String α :=
  match e with
  | .error msg => .error (ctx ++ ": " ++ msg)
  | .ok v => .ok v

/-- The request bytes `handshake` in proto.go puts on the wire before
flushing: the fixed marker byte 0 and a ByteField with the environment
name. -/
def handshakeRequest (envName : List Nat) : List Nat :=
  writeByteFieldW [0] envName

/-- The response side of `handshake`: exactly `readErrorField`. -/
def handshakeRead (resp : List Nat) : Except String (List Nat) :=
  readErrorField resp

/-- `Make` from env.go, given the server's response stream `resp` (the dial
itself is outside the model).  On handshake failure the connection is closed
and only the error — annotated "make environment" by the deferred
`AddCtxTo` — is returned; on success a handle holding the rest of the stream
is returned and the connection stays open.  The second component records
whether `conn.Close()` was called. -/
def Make (resp : List Nat) : Except String ConnEnv × Bool :=
  match handshakeRead resp with
  | .error e => (addCtx "make environment" (.error e), true)
  | .ok rest => (.ok ⟨rest⟩, false)

/-- The response-reading phase of `Step` from env.go, in source order:
observation, 8-byte reward, boolean done flag, then a ByteField unmarshalled
as the JSON info document.  Returns the four values and the unconsumed
stream. -/
def stepReadResp (s : List Nat) : Except String (Obs × Nat × Bool × Json × List Nat) :=
  match readObservation s with
  | .error e => .error e
  | .ok (obs, s1) =>
      match readReward s1 with
      | .error e => .error e
      | .ok (reward, s2) =>
          match readBool s2 with
          | .error e => .error e
          | .ok (done, s3) =>
              match readByteField s3 with
              | .error e => .error e
              | .ok (infoData, s4) =>
                  match jsonUnmarshal infoData with
                  | .error e => .error e
                  | .ok info => .ok (obs, reward, done, info, s4)

/-- `Step` from env.go: the request bytes (Step packet type then the encoded
action) and the response result, the latter annotated "step environment" by
the deferred `AddCtxTo`. -/
def Step (action : Json) (resp : List Nat) :
    List Nat × Except String (Obs × Nat × Bool × Json × List Nat) :=
  (writeAction (writePacketType [] packetStep) action,
   addCtx "step environment" (stepReadResp resp))

/-- `Reset` from env.go: Reset packet type, flush, read one observation;
errors annotated "reset environment" by the deferred `AddCtxTo`. -/
def Reset (resp : List Nat) : List Nat × Except String (Obs × List Nat) :=
  (writePacketType [] packetReset, addCtx "reset environment" (readObservation resp))

/-- `SampleAction` from env.go: SampleAction packet type, flush, decode an
Action response.  `AddCtxTo` is called without `defer` while `err` is still
nil, so the returned error is NOT annotated with "sample action". -/
def SampleAction (resp : List Nat) : List Nat × Except String (Json × List Nat) :=
  (writePacketType [] packetSampleAction, readAction resp)

/-- `getSpace` from env.go: GetSpace packet type, the one-byte space
selector, flush, then a ByteField parsed as the Space JSON document (kept as
a `Json` value here).  `AddCtxTo` is again called without `defer`, so errors
come back unannotated. -/
def getSpace (spaceID : Nat) (resp : List Nat) : List Nat × Except String (Json × List Nat) :=
  (writePacketType (writePacketType [] packetGetSpace) spaceID,
   match readByteField resp with
   | .error e => .error e
   | .ok (data, rest) =>
       match jsonUnmarshal data with
       | .error e => .error e
       | .ok space => .ok (space, rest))

/-- `Monitor` from env.go: Monitor packet type, then the three booleans
written by the loop `for _, b := range []bool{resume, force, video}` (note:
not the argument order), then a ByteField with `filepath.Abs(dir)`; the
response is a ByteField treated exactly like an ErrorField.  `AddCtxTo` is
called without `defer`, so errors are unannotated. -/
def Monitor (cwd dir : String) (force resume video : Bool) (resp : List Nat) :
    List Nat × Except String Unit :=
  let w := writePacketType [] packetMonitor
  let w := [resume, force, video].foldl (fun w b => writeBool w b) w
  let absDir := filepathAbs cwd dir
  let w := writeByteFieldW w (strBytes absDir)
  (w,
   match readByteField resp with
   | .error e => .error e
   | .ok (errData, _) =>
       if errData.length > 0 then .error (natsToString errData) else .ok ())

/-- `Render` from env.go: Render packet type and flush; no response read. -/
def Render : List Nat :=
  writePacketType [] packetRender

/-- `UniverseConfigure` from env.go: nil options become the empty map; wire
is the UniverseConfigure packet type then a ByteField with the marshalled
options; the response is an ErrorField.  (`AddCtxTo` without `defer`: no
annotation.) -/
def UniverseConfigure (options : Option (List (String × Json))) (resp : List Nat) :
    List Nat × Except String (List Nat) :=
  let options := options.getD []
  let w := writePacketType [] packetUniverseConfigure
  let jsonData := jsonMarshalMap options
  let w := writeByteFieldW w jsonData
  (w, readErrorField resp)

/-- `UniverseWrap` from env.go: like `UniverseConfigure` but with the
UniverseWrap packet type and a ByteField carrying the wrapper name before
the options field. -/
def UniverseWrap (wrapper : String) (options : Option (List (String × Json)))
    (resp : List Nat) : List Nat × Except String (List Nat) :=
  let options := options.getD []
  let w := writePacketType [] packetUniverseWrap
  let w := writeByteFieldW w (strBytes wrapper)
  let jsonData := jsonMarshalMap options
  let w := writeByteFieldW w jsonData
  (w, readErrorField resp)

/-- `RetroConfigure` from env.go: as `UniverseConfigure` with the
RetroConfigure packet type. -/
def RetroConfigure (options : Option (List (String × Json))) (resp : List Nat) :
    List Nat × Except String (List Nat) :=
  let options := options.getD []
  let w := writePacketType [] packetRetroConfigure
  let jsonData := jsonMarshalMap options
  let w := writeByteFieldW w jsonData
  (w, readErrorField resp)

/-- `RetroWrap` from env.go: as `UniverseWrap` with the RetroWrap packet
type. -/
def RetroWrap (wrapper : String) (options : Option (List (String × Json)))
    (resp : List Nat) : List Nat × Except String (List Nat) :=
  let options := options.getD []
  let w := writePacketType [] packetRetroWrap
  let w := writeByteFieldW w (strBytes wrapper)
  let jsonData := jsonMarshalMap options
  let w := writeByteFieldW w jsonData
  (w, readErrorField resp)

/-- The dimension block of a shaped-byte-array payload: each dimension size
as a 4-byte little-endian integer. -/
def encodeDims : List Nat → List Nat
  | [] => []
  | d :: ds => u32le d ++ encodeDims ds

/-- A shaped-byte-array payload as the server lays it out: 4-byte dimension
count, the dimension sizes, then the raw payload bytes. -/
def encodeShaped (dims payload : List Nat) : List Nat :=
  u32le dims.length ++ (encodeDims dims ++ payload)

/-! ## Helper lemmas about the codec -/

theorem readU32_u32le (n : Nat) (r : List Nat) :
    readU32 (u32le n ++ r) = .ok (n % 4294967296, r) := by
  simp only [u32le, List.cons_append, List.nil_append, readU32]
  congr 1
  congr 1
  omega

theorem readByteField_writeByteField_append (B extra : List Nat)
    (h : B.length < 4294967296) :
    readByteField (writeByteField B ++ extra) = .ok (B, extra) := by
  have h1 : readU32 (writeByteField B ++ extra) = .ok (B.length, B ++ extra) := by
    unfold writeByteField
    rw [List.append_assoc, readU32_u32le]
    congr 2
    omega
  by_cases h0 : B.length = 0
  · have hB : B = [] := List.eq_nil_of_length_eq_zero h0
    subst hB
    simp only [readByteField, h1]
    simp
  · have hlt : ¬ (B ++ extra).length < B.length := by
      simp only [List.length_append]
      omega
    simp only [readByteField, h1]
    rw [if_neg h0, if_neg hlt]
    simp

/-! ## Claim C1: ByteField round-trip -/

/-- Claim C1, counterexample: the round-trip fails for a byte sequence of
length 2^32, because `writeByteField` truncates the length to `uint32`: the
4294967296 zero bytes are written after a length prefix of 0, and
`readByteField` then returns the empty sequence after consuming only the
4 length bytes, leaving all 2^32 data bytes unread. -/
theorem readByteField_writeByteField_overflow (B : List Nat)
    (h : B.length = 4294967296) :
    readByteField (writeByteField B) = .ok ([], B) := by
  have h1 : readU32 (writeByteField B) = .ok (0, B) := by
    unfold writeByteField
    rw [readU32_u32le, h]
  simp only [readByteField, h1]
  simp

theorem c1_roundTrip_counterexample :
    readByteField (writeByteField (List.replicate 4294967296 0)) =
      .ok ([], List.replicate 4294967296 0) ∧
    List.replicate 4294967296 (0 : Nat) ≠ [] := by
  constructor
  · exact readByteField_writeByteField_overflow _ (by rw [List.length_replicate])
  · intro hcontra
    have hl := congrArg List.length hcontra
    rw [List.length_replicate, List.length_nil] at hl
    exact absurd hl (by decide)

/-- Claim C1 (amended with the length bound the truncation forces): for every
byte sequence `B` of length below 2^32, writing `B` with `writeByteField`
and reading the resulting stream with `readByteField` succeeds, yields
exactly `B`, and consumes exactly the 4 length bytes plus the `length B`
data bytes, leaving any following bytes untouched. -/
theorem c1_roundTrip (B extra : List Nat) (h : B.length < 4294967296) :
    readByteField (writeByteField B ++ extra) = .ok (B, extra) :=
  readByteField_writeByteField_append B extra h

/-- Claim C1, witness: the round-trip at the concrete sequence `[7, 8, 9]`
followed by two further stream bytes. -/
theorem c1_roundTrip_witness :
    readByteField (writeByteField [7, 8, 9] ++ [1, 2]) = .ok ([7, 8, 9], [1, 2]) :=
  c1_roundTrip [7, 8, 9] [1, 2] (by decide)

/-! ## Claim C2: shaped byte-array decode -/

theorem readDims_encodeDims (dims r : List Nat) (h : ∀ d ∈ dims, d < 4294967296) :
    readDims dims.length (encodeDims dims ++ r) = .ok (dims, r) := by
  induction dims with
  | nil => simp [readDims, encodeDims]
  | cons d ds ih =>
      have hd : d < 4294967296 := h d (by simp)
      have hds : ∀ x ∈ ds, x < 4294967296 := fun x hx => h x (by simp [hx])
      have h1 : readU32 (encodeDims (d :: ds) ++ r) = .ok (d, encodeDims ds ++ r) := by
        show readU32 ((u32le d ++ encodeDims ds) ++ r) = _
        rw [List.append_assoc, readU32_u32le, Nat.mod_eq_of_lt hd]
      simp only [List.length_cons, readDims, h1, ih hds]

theorem encodeDims_length (dims : List Nat) :
    (encodeDims dims).length = 4 * dims.length := by
  induction dims with
  | nil => simp [encodeDims]
  | cons d ds ih => simp [encodeDims, u32le, ih]; omega

/-- Claim C2 (amended: the dimension product is computed in Go's 64-bit
`int` arithmetic, which wraps on overflow): decoding a shaped payload with
`numDims` below 2^32 and every dimension below 2^32 fails when the dimension
count is zero, fails with the shape-mismatch error when the wrapped 64-bit
product of the dimensions differs from the number of remaining payload
bytes, and otherwise succeeds with exactly the declared dimensions and the
payload bytes.  In particular dimensions `[2,3]` with 6 payload bytes decode
to the same dimensions and bytes, with 5 or 7 bytes decoding fails, and a
dimension count of 0 always fails. -/
theorem c2_decodeUint8Obs (dims payload : List Nat)
    (h1 : dims.length < 4294967296) (h2 : ∀ d ∈ dims, d < 4294967296) :
    decodeUint8Obs (encodeShaped dims payload) =
      if dims.length = 0 then .error "byte list has 0 dimensions"
      else if dimsProduct dims ≠ (payload.length : Int) then
        .error "incorrect byte list size"
      else .ok (.uint8Obs dims payload) := by
  have hu : readU32 (encodeShaped dims payload) =
      .ok (dims.length, encodeDims dims ++ payload) := by
    unfold encodeShaped
    rw [readU32_u32le, Nat.mod_eq_of_lt h1]
  simp only [decodeUint8Obs, hu, readDims_encodeDims dims payload h2]
  by_cases h0 : dims.length = 0
  · rw [if_pos h0, if_pos h0]
  · rw [if_neg h0, if_neg h0]
    by_cases hp : dimsProduct dims = (payload.length : Int)
    · have hform : encodeShaped dims payload =
          (u32le dims.length ++ encodeDims dims) ++ payload := by
        simp [encodeShaped]
      have hdlen : (encodeShaped dims payload).length - (dimsProduct dims).toNat =
          (u32le dims.length ++ encodeDims dims).length := by
        rw [hp, Int.toNat_natCast, hform]
        simp only [List.length_append]
        omega
      have hdrop : (encodeShaped dims payload).drop
          ((encodeShaped dims payload).length - (dimsProduct dims).toNat) = payload := by
        rw [hdlen, hform, List.drop_left]
      rw [if_neg (fun hne => hne hp), if_neg (fun hne => hne hp), hdrop]
    · rw [if_pos hp, if_pos hp]

/-- Claim C2, counterexample: the product check runs in Go's 64-bit `int`
arithmetic, so a 20-byte payload declaring dimensions
`[65536, 65536, 65536, 65536]` (true product 2^64, which wraps to 0) with no
remaining payload bytes decodes SUCCESSFULLY, although the product of the
declared dimension sizes (2^64) is not the number of remaining payload
bytes (0) — refuting the claimed "succeeds only if the product equals the
remaining byte count". -/
theorem c2_decode_counterexample :
    decodeUint8Obs (encodeShaped [65536, 65536, 65536, 65536] []) =
      .ok (.uint8Obs [65536, 65536, 65536, 65536] []) ∧
    [65536, 65536, 65536, 65536].foldl (fun p d => p * d) 1 ≠
      ([] : List Nat).length := by
  constructor
  · rfl
  · decide

/-- Claim C2, witness: dimensions `[2, 3]` with exactly 6 payload bytes
decode to the same dimensions and bytes. -/
theorem c2_decodeUint8Obs_witness :
    decodeUint8Obs (encodeShaped [2, 3] [10, 20, 30, 40, 50, 60]) =
      .ok (.uint8Obs [2, 3] [10, 20, 30, 40, 50, 60]) := by
  have h := c2_decodeUint8Obs [2, 3] [10, 20, 30, 40, 50, 60] (by decide) (by decide)
  rw [h]
  rfl

/-! ## Claim C3: Step reads observation, reward, done, info in order -/

/-- Claim C3: the `Step` response reader consumes, in this exact order, the
Observation (here in its JSON encoding), then the 8 reward bytes, then the
one-byte done flag, then the info ByteField unmarshalled as JSON — each
field taken from its exact position in the stream, all four read even though
the composite result is returned only at the end, and nothing beyond them
consumed (the leftover is exactly `rest`). -/
theorem c3_step_read_order (obsPayload : List Nat)
    (b0 b1 b2 b3 b4 b5 b6 b7 d : Nat) (infoBytes rest : List Nat) (j : Json)
    (hobs : obsPayload.length < 4294967296)
    (hinfo : infoBytes.length < 4294967296)
    (hd : d = 0 ∨ d = 1)
    (hj : jsonUnmarshal infoBytes = .ok j) :
    stepReadResp (observationJSON :: (writeByteField obsPayload ++
        ([b0, b1, b2, b3, b4, b5, b6, b7] ++ (d :: (writeByteField infoBytes ++ rest)))))
      = .ok (.jsonObs obsPayload, leNat8 b0 b1 b2 b3 b4 b5 b6 b7, decide (d = 1), j, rest) := by
  have h1 : readObservation (observationJSON :: (writeByteField obsPayload ++
      ([b0, b1, b2, b3, b4, b5, b6, b7] ++ (d :: (writeByteField infoBytes ++ rest)))))
      = .ok (.jsonObs obsPayload,
          [b0, b1, b2, b3, b4, b5, b6, b7] ++ (d :: (writeByteField infoBytes ++ rest))) := by
    simp only [readObservation,
      readByteField_writeByteField_append obsPayload _ hobs]
    simp [observationJSON]
  have h2 : readReward ([b0, b1, b2, b3, b4, b5, b6, b7] ++
      (d :: (writeByteField infoBytes ++ rest)))
      = .ok (leNat8 b0 b1 b2 b3 b4 b5 b6 b7, d :: (writeByteField infoBytes ++ rest)) := rfl
  have h3 : readBool (d :: (writeByteField infoBytes ++ rest))
      = .ok (decide (d = 1), writeByteField infoBytes ++ rest) := by
    rcases hd with h | h <;> subst h <;> rfl
  have h4 : readByteField (writeByteField infoBytes ++ rest) = .ok (infoBytes, rest) :=
    readByteField_writeByteField_append infoBytes rest hinfo
  simp only [stepReadResp, h1, h2, h3, h4, hj]

/-- Claim C3, witness: a concrete Step response — JSON observation `[42]`,
reward bit pattern `0x F0 00 ...` (the bytes 0,0,0,0,0,0,0,240), done flag
1, info document "null", two trailing stream bytes left unconsumed. -/
theorem c3_step_read_order_witness :
    stepReadResp (observationJSON :: (writeByteField [42] ++
        ([0, 0, 0, 0, 0, 0, 0, 240] ++ (1 :: (writeByteField [110, 117, 108, 108] ++ [5, 6])))))
      = .ok (.jsonObs [42], leNat8 0 0 0 0 0 0 0 240, decide ((1 : Nat) = 1), Json.null, [5, 6]) :=
  c3_step_read_order [42] 0 0 0 0 0 0 0 240 1 [110, 117, 108, 108] [5, 6] Json.null
    (by decide) (by decide) (Or.inr rfl) (by rfl)

/-! ## Claim C10: a zero-length info field makes Step fail -/

theorem readByteField_u32le_zero (r : List Nat) :
    readByteField (u32le 0 ++ r) = .ok ([], r) := by
  simp only [readByteField, readU32_u32le]
  norm_num

/-- Claim C10: when the trailing info ByteField of a Step response has zero
length, `Step` returns an error (the JSON unmarshal of the empty byte
sequence fails with "unexpected end of JSON input", annotated with the
operation name by the deferred context wrapper) — even though the
observation, the reward bytes and the done flag before it were decoded
successfully. -/
theorem c10_step_empty_info (act : Json) (obsPayload : List Nat)
    (b0 b1 b2 b3 b4 b5 b6 b7 d : Nat) (rest : List Nat)
    (hobs : obsPayload.length < 4294967296)
    (hd : d = 0 ∨ d = 1) :
    (Step act (observationJSON :: (writeByteField obsPayload ++
        ([b0, b1, b2, b3, b4, b5, b6, b7] ++ (d :: (u32le 0 ++ rest)))))).2
      = .error "step environment: unexpected end of JSON input" := by
  have h1 : readObservation (observationJSON :: (writeByteField obsPayload ++
      ([b0, b1, b2, b3, b4, b5, b6, b7] ++ (d :: (u32le 0 ++ rest)))))
      = .ok (.jsonObs obsPayload,
          [b0, b1, b2, b3, b4, b5, b6, b7] ++ (d :: (u32le 0 ++ rest))) := by
    simp only [readObservation,
      readByteField_writeByteField_append obsPayload _ hobs]
    simp [observationJSON]
  have h2 : readReward ([b0, b1, b2, b3, b4, b5, b6, b7] ++ (d :: (u32le 0 ++ rest)))
      = .ok (leNat8 b0 b1 b2 b3 b4 b5 b6 b7, d :: (u32le 0 ++ rest)) := rfl
  have h3 : readBool (d :: (u32le 0 ++ rest))
      = .ok (decide (d = 1), u32le 0 ++ rest) := by
    rcases hd with h | h <;> subst h <;> rfl
  have h5 : jsonUnmarshal [] = .error "unexpected end of JSON input" := rfl
  simp only [Step, stepReadResp, h1, h2, h3, readByteField_u32le_zero, h5, addCtx]
  rfl

/-- Claim C10, witness: the concrete Step response with JSON observation
`[42]`, zero reward bytes, done flag 0, and a zero-length info field. -/
theorem c10_step_empty_info_witness :
    (Step Json.null (observationJSON :: (writeByteField [42] ++
        ([0, 0, 0, 0, 0, 0, 0, 0] ++ (0 :: (u32le 0 ++ [])))))).2
      = .error "step environment: unexpected end of JSON input" :=
  c10_step_empty_info Json.null [42] 0 0 0 0 0 0 0 0 0 [] (by decide) (Or.inl rfl)

/-! ## Claim C4: Monitor wire order and absolute path -/

theorem isAbsPath_slash_append (s : String) : isAbsPath ("/" ++ s) = true := by
  simp [isAbsPath, String.data_append]

theorem isAbsPath_append_left (a b : String) (h : isAbsPath a = true) :
    isAbsPath (a ++ b) = true := by
  have hdata : (a ++ b).data = a.data ++ b.data := String.data_append a b
  unfold isAbsPath at h ⊢
  rcases ha : a.data with _ | ⟨c, t⟩
  · rw [ha] at h
    simp at h
  · rw [ha] at h
    rw [hdata, ha]
    simpa using h

theorem isAbsPath_filepathClean (p : String) (h : isAbsPath p = true) :
    isAbsPath (filepathClean p) = true := by
  have hne : p ≠ "" := by
    intro he
    subst he
    simp [isAbsPath] at h
  unfold filepathClean
  rw [if_neg hne]
  simp only [h, if_true]
  exact isAbsPath_slash_append _

/-- Claim C4: for every `Monitor(dir, force, resume, video)` call, the wire
bytes are the Monitor packet-type byte (4), then the three boolean bytes in
the fixed order resume, force, video — which differs from the argument order
— then a ByteField containing `filepath.Abs(dir)`, the path resolved against
the current working directory; and that resolved path is absolute whenever
the working directory is. -/
theorem c4_monitor_wire (cwd dir : String) (force resume video : Bool) (resp : List Nat)
    (h : isAbsPath cwd = true) :
    (Monitor cwd dir force resume video resp).1
      = packetMonitor :: ((if resume then 1 else 0) :: (if force then 1 else 0) ::
          (if video then 1 else 0) :: writeByteField (strBytes (filepathAbs cwd dir)))
    ∧ isAbsPath (filepathAbs cwd dir) = true := by
  constructor
  · simp [Monitor, writePacketType, writeBool, writeByteFieldW, packetMonitor]
  · unfold filepathAbs
    by_cases hdir : isAbsPath dir = true
    · rw [if_pos hdir]
      exact isAbsPath_filepathClean dir hdir
    · rw [if_neg hdir]
      exact isAbsPath_filepathClean _ (isAbsPath_append_left _ _ (isAbsPath_append_left _ _ h))

/-- Claim C4, witness: `Monitor(dir="x", force=true, resume=false,
video=true)` from working directory "/tmp" puts `4, 0, 1, 1` then the
ByteField of the absolute path on the wire. -/
theorem c4_monitor_wire_witness :
    (Monitor "/tmp" "x" true false true []).1
      = packetMonitor :: (0 :: 1 :: 1 :: writeByteField (strBytes (filepathAbs "/tmp" "x")))
    ∧ isAbsPath (filepathAbs "/tmp" "x") = true := by
  have h := c4_monitor_wire "/tmp" "x" true false true [] (by decide)
  simpa using h

/-! ## Claim C5: handshake success and failure -/

/-- Claim C5: if the server answers the handshake with an empty ErrorField
(a zero length prefix), `Make` succeeds and returns a handle over the
remaining stream with the connection left open; if it answers with a
non-empty ErrorField, `Make` fails and the returned error is the
operation-name annotation followed by the exact server-supplied message
(so the error contains that message verbatim). -/
theorem c5_handshake (msg rest rest2 : List Nat)
    (hm : msg ≠ []) (hlen : msg.length < 4294967296) :
    Make (u32le 0 ++ rest) = (.ok ⟨rest⟩, false)
    ∧ Make (writeByteField msg ++ rest2)
        = (.error ("make environment: " ++ natsToString msg), true) := by
  constructor
  · have h1 : readErrorField (u32le 0 ++ rest) = .ok rest := by
      simp only [readErrorField, readByteField_u32le_zero]
      simp
    simp only [Make, handshakeRead, h1]
  · have h2 : readErrorField (writeByteField msg ++ rest2) = .error (natsToString msg) := by
      simp only [readErrorField, readByteField_writeByteField_append msg rest2 hlen]
      rw [if_pos (List.length_pos.mpr hm)]
    simp only [Make, handshakeRead, h2, addCtx]
    rfl

/-- Claim C5, witness: an empty ErrorField response lets `Make` return a
handle; the response `ErrorField("no such env")` makes it fail with an
error carrying exactly that message. -/
theorem c5_handshake_witness :
    Make (u32le 0 ++ [9]) = (.ok ⟨[9]⟩, false)
    ∧ Make (writeByteField (strBytes "no such env") ++ [])
        = (.error ("make environment: " ++ natsToString (strBytes "no such env")), true) :=
  c5_handshake (strBytes "no such env") [9] [] (by decide) (by decide)

/-! ## Claim C6: operation-name annotation of errors -/

/-- Claim C6 fails on the code: `SampleAction`, `getSpace` and `Monitor`
call `essentials.AddCtxTo` WITHOUT `defer`, so it runs at function entry
while `err` is still nil and annotates nothing — an underlying I/O failure
(here: the server closes the connection before responding, an empty
response stream) comes back as the bare "EOF" with no "sample action",
"get space info" or "monitor environment" context.  Only the methods using
`defer` (such as `Step`, last conjunct) annotate as the claim says. -/
theorem c6_annotation_missing :
    (SampleAction []).2 = .error "EOF"
    ∧ (getSpace actionSpace []).2 = .error "EOF"
    ∧ (Monitor "/tmp" "x" true false true []).2 = .error "EOF"
    ∧ (Step Json.null []).2 = .error "step environment: EOF" :=
  ⟨rfl, rfl, rfl, rfl⟩

/-! ## Claim C7: Universe/Retro configure and wrap requests -/

/-- Claim C7: each of the four configuration operations writes its packet
type, then (Wrap variants only) a ByteField with the wrapper name, then a
ByteField holding the JSON encoding of the options, where an absent
(`none`/nil) options argument is normalized to the empty JSON object `[123,
125]` (`"\x7b\x7d"`) before encoding and the options field is never
omitted; the response phase reads an ErrorField. -/
theorem c7_configure_wrap_wire (wrapper : String)
    (options : Option (List (String × Json))) (resp : List Nat) :
    (UniverseConfigure options resp).1
      = packetUniverseConfigure :: writeByteField (jsonMarshalMap (options.getD []))
    ∧ (UniverseWrap wrapper options resp).1
      = packetUniverseWrap :: (writeByteField (strBytes wrapper)
          ++ writeByteField (jsonMarshalMap (options.getD [])))
    ∧ (RetroConfigure options resp).1
      = packetRetroConfigure :: writeByteField (jsonMarshalMap (options.getD []))
    ∧ (RetroWrap wrapper options resp).1
      = packetRetroWrap :: (writeByteField (strBytes wrapper)
          ++ writeByteField (jsonMarshalMap (options.getD [])))
    ∧ jsonMarshalMap ((none : Option (List (String × Json))).getD []) = [123, 125]
    ∧ (UniverseConfigure options resp).2 = readErrorField resp
    ∧ (UniverseWrap wrapper options resp).2 = readErrorField resp
    ∧ (RetroConfigure options resp).2 = readErrorField resp
    ∧ (RetroWrap wrapper options resp).2 = readErrorField resp := by
  refine ⟨?_, ?_, ?_, ?_, rfl, rfl, rfl, rfl, rfl⟩
  · simp [UniverseConfigure, writePacketType, writeByteFieldW, packetUniverseConfigure]
  · simp [UniverseWrap, writePacketType, writeByteFieldW, packetUniverseWrap]
  · simp [RetroConfigure, writePacketType, writeByteFieldW, packetRetroConfigure]
  · simp [RetroWrap, writePacketType, writeByteFieldW, packetRetroWrap]

/-! ## Claim C9: Make closes the connection on handshake failure -/

/-- Claim C9: whenever the handshake phase of `Make` fails, `Make` closes
the underlying network connection (second component `true`) and returns
only the (annotated) error — no handle is produced. -/
theorem c9_make_closes_on_error (resp : List Nat) (e : String)
    (h : handshakeRead resp = .error e) :
    Make resp = (.error ("make environment: " ++ e), true) := by
  simp only [Make, h, addCtx]
  rfl

/-- Claim C9, witness: a server that closes the stream before sending the
handshake ErrorField (empty response) makes `Make` fail, closing the
connection. -/
theorem c9_make_closes_on_error_witness :
    Make [] = (.error "make environment: EOF", true) :=
  c9_make_closes_on_error [] "EOF" rfl

end GymSocket
